import Mathlib

/-!
# Verification of the personal-CRM backend core

A shallow embedding of the backend's core operations, translated from
`backend/src/app`:

* the Kanban position reindexer (`api/v1/kanban.py`, `move_contact`),
* the association-graph service (`services/graph.py`: `get_graph`,
  `create_edge`) and contact deletion (`services/contacts.py`,
  `delete_contact`),
* the connected-components clusterer (absent from the service sources;
  modelled from the spec, §4.2) on `Batteries.UnionFind`.

Conventions of the embedding:

* UUID primary keys are modelled as `Nat`; the relational store is a record
  of lists of rows.
* `sort_order_in_status` is a non-nullable integer column that only ever
  holds non-negative values (its default is 0, the request schema validates
  `position ≥ 0`, and every decrementing `UPDATE` is guarded by
  `sort_order_in_status > old_position ≥ 0`), so it is modelled as `Nat`;
  on every row an update touches, `Nat` subtraction agrees with integer
  subtraction.
* Python's `contact.sort_order_in_status or 0` is the identity on a
  non-nullable integer column value `n` when `n ≠ 0` and maps `0` to `0`,
  so it is the identity and is not reproduced.
* a raised exception aborts the request before `commit`, so error paths
  return the store unchanged; operations return `store × Except error response`.
-/

namespace CRM

/-- A row of the `contacts` table (`models/contact.py`), restricted to the
columns the verified operations read or write. -/
structure Contact where
  id : Nat
  first_name : String := ""
  middle_name : Option String := none
  last_name : Option String := none
  met_at : Option Int := none
  status_id : Option Nat := none
  photo_path : Option String := none
  sort_order_in_status : Nat := 0
  tags : List Nat := []
  interests : List Nat := []
  deriving Repr, DecidableEq

/-- A row of `contact_associations` (`models/association.py`): a directed
edge record between two contacts. -/
structure ContactAssociation where
  id : Nat
  source_contact_id : Nat
  target_contact_id : Nat
  label : Option String := none
  deriving Repr, DecidableEq

/-- A row of `contact_occupations` (`models/association.py`), with the
positions attached to it through `contact_occupation_positions`. -/
structure ContactOccupation where
  id : Nat
  contact_id : Nat
  occupation_id : Nat
  positions : List Nat := []
  deriving Repr, DecidableEq

/-- The relational store, restricted to the tables the verified operations
touch.  `statuses` keeps only the primary keys: the reindexer reads nothing
else from the `statuses` table. -/
structure Store where
  contacts : List Contact := []
  statuses : List Nat := []
  associations : List ContactAssociation := []
  contact_occupations : List ContactOccupation := []
  deriving Repr, DecidableEq

/-- The errors the verified operations raise (`utils/errors.py`), plus the
two persistence-layer errors that can surface through them:
`multipleResultsFound` is SQLAlchemy's `MultipleResultsFound` from
`scalar_one_or_none`, `integrityError` a constraint violation at flush,
and `validationError` is pydantic's missing-required-field error. -/
inductive ApiError where
  | contactNotFound (id : Nat)
  | statusNotFound (id : Nat)
  | graphEdgeExists (source target : Nat)
  | graphEdgeNotFound (id : Nat)
  | multipleResultsFound
  | integrityError
  | validationError
  deriving Repr, DecidableEq

/-- `schemas/kanban.py`, `KanbanMoveResponse`. -/
structure KanbanMoveResponse where
  id : Nat
  status_id : Nat
  sort_order_in_status : Nat
  deriving Repr, DecidableEq

/-- `SELECT ... WHERE id = k` followed by `scalar_one_or_none()` on a
primary-key column: the first row with that key, if any. -/
def findById (contacts : List Contact) (k : Nat) : Option Contact :=
  contacts.find? (fun c => c.id == k)

/-- `api/v1/kanban.py`, `move_contact`.  The request carries
`contact_id`, `status_id` and a `position` already validated to be `≥ 0`
(`KanbanMoveRequest`, `Field(ge=0)`).  Mirrors the handler: verify the
contact exists, verify the status exists, branch on same-column versus
cross-column, issue the guarded bulk `UPDATE`s, then write the moved row. -/
def move_contact (db : Store) (contact_id status_id : Nat) (position : Nat) :
    Store × Except ApiError KanbanMoveResponse :=
  match findById db.contacts contact_id with
  | none => (db, .error (.contactNotFound contact_id))
  | some contact =>
    if db.statuses.contains status_id then
      let old_status_id := contact.status_id
      let old_position := contact.sort_order_in_status
      let new_position := position
      let contacts1 : List Contact :=
        if old_status_id = some status_id then
          -- moving within the same status
          if old_position < new_position then
            -- moving down: shift contacts between old and new position up
            db.contacts.map fun c =>
              if c.status_id = some status_id ∧
                  old_position < c.sort_order_in_status ∧
                  c.sort_order_in_status ≤ new_position then
                { c with sort_order_in_status := c.sort_order_in_status - 1 }
              else c
          else if old_position > new_position then
            -- moving up: shift contacts between new and old position down
            db.contacts.map fun c =>
              if c.status_id = some status_id ∧
                  new_position ≤ c.sort_order_in_status ∧
                  c.sort_order_in_status < old_position then
                { c with sort_order_in_status := c.sort_order_in_status + 1 }
              else c
          else db.contacts
        else
          -- moving to a different status
          let afterOld : List Contact :=
            match old_status_id with
            | some os =>
              -- shift contacts in the old status up to fill the gap
              db.contacts.map fun c =>
                if c.status_id = some os ∧ old_position < c.sort_order_in_status then
                  { c with sort_order_in_status := c.sort_order_in_status - 1 }
                else c
            | none => db.contacts
          -- shift contacts in the new status down to make room
          afterOld.map fun c =>
            if c.status_id = some status_id ∧ new_position ≤ c.sort_order_in_status then
              { c with sort_order_in_status := c.sort_order_in_status + 1 }
            else c
      -- update the moved contact (flushed at commit, keyed by the primary key)
      let contacts2 : List Contact :=
        contacts1.map fun c =>
          if c.id = contact_id then
            { c with status_id := some status_id, sort_order_in_status := new_position }
          else c
      ({ db with contacts := contacts2 },
        .ok ⟨contact_id, status_id, new_position⟩)
    else (db, .error (.statusNotFound status_id))

/-- The contacts currently in status column `s`, in table order. -/
def columnContacts (db : Store) (s : Nat) : List Contact :=
  db.contacts.filter (fun c => c.status_id = some s)

/-- The `sort_order_in_status` values of the contacts currently in status
column `s`. -/
def colSorts (db : Store) (s : Nat) : List Nat :=
  (columnContacts db s).map (·.sort_order_in_status)

/-- A column's positions are dense: a permutation of `0 .. N-1`. -/
def DenseCol (l : List Nat) : Prop :=
  l.Perm (List.range l.length)

instance (l : List Nat) : Decidable (DenseCol l) :=
  inferInstanceAs (Decidable (l.Perm _))

/-- Every status column of the store is dense. -/
def DenseStore (db : Store) : Prop :=
  ∀ s ∈ db.statuses, DenseCol (colSorts db s)

instance (db : Store) : Decidable (DenseStore db) :=
  List.decidableBAll _ db.statuses

/-! ### Graph service (`services/graph.py`, `services/contacts.py`)

`GraphNode`'s `position_x`/`position_y` columns are floating point and are
never examined by any verified property, so they are omitted from the
embedding; `EdgeResponse.created_at` is a server-set timestamp and is
omitted for the same reason.  UUIDs are `Nat`, so the `ValueError` path for
syntactically invalid UUID strings has no counterpart. -/

/-- `schemas/graph.py`, `GraphNode` (positions omitted, see above). -/
structure GraphNode where
  id : Nat
  first_name : String
  last_name : Option String := none
  photo_url : Option String := none
  cluster_id : Option Nat := none
  deriving Repr, DecidableEq

/-- `schemas/graph.py`, `GraphEdge`. -/
structure GraphEdge where
  id : Nat
  source_id : Nat
  target_id : Nat
  label : Option String := none
  deriving Repr, DecidableEq

/-- `schemas/graph.py`, `GraphCluster`. -/
structure GraphCluster where
  id : Nat
  contact_count : Nat
  color : String
  deriving Repr, DecidableEq

/-- `schemas/graph.py`, `GraphResponse`: `nodes`, `edges` and `clusters` are
all required fields with no default. -/
structure GraphResponse where
  nodes : List GraphNode
  edges : List GraphEdge
  clusters : List GraphCluster
  deriving Repr, DecidableEq

/-- A pydantic model-construction call for `GraphResponse`.  Passing
`none` for a keyword models omitting it from the call; because `clusters`
has no default, omitting it makes validation fail. -/
def mkGraphResponse (nodes : List GraphNode) (edges : List GraphEdge)
    (clusters : Option (List GraphCluster)) : Except ApiError GraphResponse :=
  match clusters with
  | some cs => .ok ⟨nodes, edges, cs⟩
  | none => .error .validationError

/-- `schemas/graph.py`, `EdgeResponse` (`created_at` omitted, see above). -/
structure EdgeResponse where
  id : Nat
  source_id : Nat
  target_id : Nat
  label : Option String := none
  deriving Repr, DecidableEq

/-- The filter arguments of `get_graph`.  A list filter left empty is an
absent filter, mirroring Python truthiness of `None` and `[]`. -/
structure GraphFilters where
  status_id : Option Nat := none
  status_ids : List Nat := []
  tag_ids : List Nat := []
  interest_ids : List Nat := []
  occupation_ids : List Nat := []
  position_ids : List Nat := []
  met_at_from : Option Int := none
  met_at_to : Option Int := none
  search : Option String := none
  deriving Repr, DecidableEq

/-- `search.strip().lower().split()`: lower-case words of the search
string, split on whitespace with no empty words. -/
def searchWords (s : String) : List String :=
  ((s.trim.toLower).split Char.isWhitespace).filter (fun w => w ≠ "")

/-- `column ILIKE '%word%'` with an already lower-cased `word`: substring
match against the lower-cased column; `NULL` never matches. -/
def ilikeContains (word : String) (col : Option String) : Bool :=
  match col with
  | none => false
  | some v => word.toList.IsInfix v.toLower.toList

/-- The `WHERE` clause `get_graph` builds on the `contacts` table: status
(single id, else any-of list), met-date range (a `NULL` date never passes a
range bound), and the name search (an `OR` over every word/column pair; a
search that yields no words produces an empty `or_()`, which matches
nothing). -/
def matchesQuery (filters : GraphFilters) (c : Contact) : Bool :=
  (match filters.status_id with
   | some sid => c.status_id = some sid
   | none =>
     match filters.status_ids with
     | [] => true
     | sids =>
       match c.status_id with
       | some s => s ∈ sids
       | none => false)
  && (match filters.met_at_from with
      | none => true
      | some d =>
        match c.met_at with
        | some m => d ≤ m
        | none => false)
  && (match filters.met_at_to with
      | none => true
      | some d =>
        match c.met_at with
        | some m => m ≤ d
        | none => false)
  && (match filters.search with
      | none => true
      | some s =>
        -- Python's `if search:` also skips the filter on an empty string
        if s = "" then true
        else
          (searchWords s).any fun w =>
            ilikeContains w (some c.first_name) || ilikeContains w c.middle_name
              || ilikeContains w c.last_name)

/-- Contacts holding any of the given tags (`join(Contact.tags)` +
`Tag.id.in_`; `group_by` makes the ids distinct, which membership tests do
not observe). -/
def tagContactIds (db : Store) (tag_ids : List Nat) : List Nat :=
  (db.contacts.filter (fun c => c.tags.any (· ∈ tag_ids))).map (·.id)

/-- Contacts holding any of the given interests. -/
def interestContactIds (db : Store) (interest_ids : List Nat) : List Nat :=
  (db.contacts.filter (fun c => c.interests.any (· ∈ interest_ids))).map (·.id)

/-- Contacts with a `contact_occupations` row for any of the given
occupations. -/
def occupationContactIds (db : Store) (occupation_ids : List Nat) : List Nat :=
  (db.contact_occupations.filter (fun co => co.occupation_id ∈ occupation_ids)).map
    (·.contact_id)

/-- Contacts with a `contact_occupations` row carrying any of the given
positions. -/
def positionContactIds (db : Store) (position_ids : List Nat) : List Nat :=
  (db.contact_occupations.filter (fun co => co.positions.any (· ∈ position_ids))).map
    (·.contact_id)

/-- The `contact_ids_to_filter` accumulation of `get_graph`: each provided
id-list filter contributes a contact-id set, intersected with what was
already accumulated. -/
def contactIdsToFilter (db : Store) (filters : GraphFilters) : Option (List Nat) :=
  let s1 : Option (List Nat) :=
    if filters.tag_ids.isEmpty then none
    else some (tagContactIds db filters.tag_ids)
  let s2 : Option (List Nat) :=
    if filters.interest_ids.isEmpty then s1
    else
      let ids := interestContactIds db filters.interest_ids
      some (match s1 with
        | none => ids
        | some prev => prev.filter (· ∈ ids))
  let s3 : Option (List Nat) :=
    if filters.occupation_ids.isEmpty then s2
    else
      let ids := occupationContactIds db filters.occupation_ids
      some (match s2 with
        | none => ids
        | some prev => prev.filter (· ∈ ids))
  if filters.position_ids.isEmpty then s3
  else
    let ids := positionContactIds db filters.position_ids
    some (match s3 with
      | none => ids
      | some prev => prev.filter (· ∈ ids))

/-- Node and edge assembly plus the final `GraphResponse(nodes=nodes,
edges=edges)` constructor call of `get_graph` — which omits the required
`clusters` field.  `signUrl` stands for `get_file_url` wrapped in its
`try/except` (`none` both for "no photo" and for a raised storage error). -/
def graphResult (db : Store) (signUrl : String → Option String)
    (contacts : List Contact) : Except ApiError GraphResponse :=
  let nodes : List GraphNode := contacts.map fun c =>
    { id := c.id, first_name := c.first_name, last_name := c.last_name,
      photo_url :=
        match c.photo_path with
        | none => none
        | some p => signUrl p }
  let contact_id_set := contacts.map (·.id)
  let edges : List GraphEdge :=
    if contact_id_set.isEmpty then []
    else
      ((db.associations.filter fun e =>
          contact_id_set.contains e.source_contact_id
            || contact_id_set.contains e.target_contact_id).filter fun e =>
          contact_id_set.contains e.source_contact_id
            && contact_id_set.contains e.target_contact_id).map fun e =>
        { id := e.id, source_id := e.source_contact_id,
          target_id := e.target_contact_id, label := e.label }
  mkGraphResponse nodes edges none

/-- `services/graph.py`, `get_graph`: apply the query filters and the
id-set filters, short-circuit to `GraphResponse(nodes=[], edges=[])` when
the id-set filters match nothing, otherwise build nodes and edges and call
`GraphResponse(nodes=nodes, edges=edges)`. -/
def get_graph (db : Store) (filters : GraphFilters)
    (signUrl : String → Option String) : Except ApiError GraphResponse :=
  match contactIdsToFilter db filters with
  | some idsf =>
    if idsf.isEmpty then
      -- no contacts match the filters
      mkGraphResponse [] [] none
    else
      graphResult db signUrl
        (db.contacts.filter fun c => matchesQuery filters c && idsf.contains c.id)
  | none => graphResult db signUrl (db.contacts.filter (matchesQuery filters))

/-- SQLAlchemy's `scalar_one_or_none()`: at most one row or the
`MultipleResultsFound` error. -/
def scalar_one_or_none {α : Type} (l : List α) : Except ApiError (Option α) :=
  match l with
  | [] => .ok none
  | [a] => .ok (some a)
  | _ => .error .multipleResultsFound

/-- The symmetric existence check of `create_edge`: association rows
matching `(source, target)` in either direction. -/
def matchingEdges (db : Store) (source_id target_id : Nat) : List ContactAssociation :=
  db.associations.filter fun a =>
    (a.source_contact_id = source_id && a.target_contact_id = target_id)
      || (a.source_contact_id = target_id && a.target_contact_id = source_id)

/-- `services/graph.py`, `create_edge`: verify both contacts exist (source
first), run the symmetric existence check through `scalar_one_or_none`,
then insert.  The flush enforces `check_no_self_association`
(`models/association.py`), surfacing as an integrity error; `freshId`
stands for the generated `uuid4` primary key. -/
def create_edge (db : Store) (source_id target_id : Nat) (label : Option String)
    (freshId : Nat) : Store × Except ApiError EdgeResponse :=
  match findById db.contacts source_id with
  | none => (db, .error (.contactNotFound source_id))
  | some _ =>
    match findById db.contacts target_id with
    | none => (db, .error (.contactNotFound target_id))
    | some _ =>
      match scalar_one_or_none (matchingEdges db source_id target_id) with
      | .error e => (db, .error e)
      | .ok (some _) => (db, .error (.graphEdgeExists source_id target_id))
      | .ok none =>
        if source_id = target_id then (db, .error .integrityError)
        else
          ({ db with associations := db.associations ++
              [{ id := freshId, source_contact_id := source_id,
                 target_contact_id := target_id, label := label }] },
            .ok ⟨freshId, source_id, target_id, label⟩)

/-- `services/contacts.py`, `delete_contact`: verify the contact exists,
then delete its row; the delete cascades to its association rows (either
endpoint) and its occupation rows, and touches nothing else. -/
def delete_contact (db : Store) (contact_id : Nat) : Store × Except ApiError Unit :=
  match findById db.contacts contact_id with
  | none => (db, .error (.contactNotFound contact_id))
  | some _ =>
    ({ db with
        contacts := db.contacts.filter fun c => c.id ≠ contact_id,
        associations := db.associations.filter fun a =>
          a.source_contact_id ≠ contact_id ∧ a.target_contact_id ≠ contact_id,
        contact_occupations := db.contact_occupations.filter fun co =>
          co.contact_id ≠ contact_id },
      .ok ())

/-! ### Graph clusterer (spec §4.2)

The clusterer's implementation is not among the service sources — only its
response schema (`schemas/graph.py`, `ClusterRecomputeResponse`) is — so
the operation itself is modelled from the spec. -/

/-- `schemas/graph.py`, `ClusterRecomputeResponse`. -/
structure ClusterRecomputeResponse where
  clusters_found : Nat
  contacts_updated : Nat
  algorithm : String := "connected_components"
  deriving Repr, DecidableEq

/-- Modelled from the spec: the Union-Find structure of the missing
`recompute()` implementation, "initialized with one singleton set per
contact identifier" — `Batteries.UnionFind` provides exactly the spec's
union-by-rank with path compression on find.  Contacts are identified by
their index `0 .. n-1` in the spec's stable iteration order. -/
def ufInit : Nat → Batteries.UnionFind
  | 0 => .empty
  | n + 1 => (ufInit n).push

/-- Modelled from the spec: "for every association edge (source, target),
the sets containing source and target are unioned".  An edge endpoint
outside the structure (impossible under the foreign-key integrity the
claims assume) is skipped. -/
def addEdges (uf : Batteries.UnionFind) (es : List (Nat × Nat)) : Batteries.UnionFind :=
  es.foldl
    (fun u e =>
      if h : e.1 < u.size ∧ e.2 < u.size then u.union ⟨e.1, h.1⟩ ⟨e.2, h.2⟩ else u)
    uf

/-- The distinct elements of a list in the order they are first
encountered, appended after `acc`. -/
def firstSeenAux (acc : List Nat) : List Nat → List Nat
  | [] => acc
  | r :: rs => if r ∈ acc then firstSeenAux acc rs else firstSeenAux (acc ++ [r]) rs

/-- Modelled from the spec: "roots are mapped to dense integer labels in
the order roots are first encountered while iterating contacts in a stable
order" — the roots of contacts `0 .. n-1`, each kept at its first
encounter. -/
def rootsInOrder (uf : Batteries.UnionFind) (n : Nat) : List Nat :=
  firstSeenAux [] ((List.range n).map uf.rootD)

/-- Modelled from the spec: the missing `recompute()` operation over `n`
contacts and the association edges `es`.  Returns the persisted
`cluster_id` assignment (a contact's label is the position of its root in
`rootsInOrder`; `none` for indices that are not contacts) and the response:
`clusters_found` is the number of distinct labels handed out,
`contacts_updated` counts one update per iterated contact. -/
def recompute (n : Nat) (es : List (Nat × Nat)) :
    (Nat → Option Nat) × ClusterRecomputeResponse :=
  let uf := addEdges (ufInit n) es
  let roots := rootsInOrder uf n
  (fun i => if i < n then some (roots.indexOf (uf.rootD i)) else none,
    { clusters_found := roots.length,
      contacts_updated := ((List.range n).map uf.rootD).length })

/-- One association edge, read symmetrically ("treating each stored
directed edge as symmetric"). -/
def EdgeStep (es : List (Nat × Nat)) (a b : Nat) : Prop :=
  (a, b) ∈ es ∨ (b, a) ∈ es

/-- Connectivity by a path of association edges. -/
def Connected (es : List (Nat × Nat)) : Nat → Nat → Prop :=
  Relation.ReflTransGen (EdgeStep es)

/-- The spec's description of a same-column move (`old` = current position of
the moved contact, `new` = target position), as a per-row outcome: the moved
contact ends at `new`; a sibling with position in `(old, new]` (when
`old < new`) is decremented; a sibling with position in `[new, old)` (when
`old > new`) is incremented; every other row is unchanged. -/
def sameColumnMoveSpec (cid s old new : Nat) (r : Contact) : Contact :=
  if r.id = cid then
    { r with status_id := some s, sort_order_in_status := new }
  else if r.status_id = some s then
    if old < new ∧ old < r.sort_order_in_status ∧ r.sort_order_in_status ≤ new then
      { r with sort_order_in_status := r.sort_order_in_status - 1 }
    else if new < old ∧ new ≤ r.sort_order_in_status ∧ r.sort_order_in_status < old then
      { r with sort_order_in_status := r.sort_order_in_status + 1 }
    else r
  else r

/-- The spec's description of a cross-column move: the moved contact gets
(`target status`, `new`); a sibling remaining in the (non-null) old status
with position `> old` is decremented; a sibling in the target status with
position `≥ new` is incremented; every other row is unchanged. -/
def crossColumnMoveSpec (cid s : Nat) (old_status : Option Nat) (old new : Nat)
    (r : Contact) : Contact :=
  if r.id = cid then
    { r with status_id := some s, sort_order_in_status := new }
  else if r.status_id = old_status ∧ r.status_id ≠ none ∧ old < r.sort_order_in_status then
    { r with sort_order_in_status := r.sort_order_in_status - 1 }
  else if r.status_id = some s ∧ new ≤ r.sort_order_in_status then
    { r with sort_order_in_status := r.sort_order_in_status + 1 }
  else r

/-- Spec scenario 1 store: status `10` ("Active") holds contacts A(id 1),
B(id 2), C(id 3) at positions 0, 1, 2. -/
def exStore1 : Store :=
  { contacts :=
      [ { id := 1, status_id := some 10, sort_order_in_status := 0 },
        { id := 2, status_id := some 10, sort_order_in_status := 1 },
        { id := 3, status_id := some 10, sort_order_in_status := 2 } ],
    statuses := [10] }

/-- Spec scenario 2 store: status `20` ("New") holds A(id 1) at 0; status
`10` ("Active") holds B(id 2), C(id 3) at 0, 1. -/
def exStore2 : Store :=
  { contacts :=
      [ { id := 1, status_id := some 20, sort_order_in_status := 0 },
        { id := 2, status_id := some 10, sort_order_in_status := 0 },
        { id := 3, status_id := some 10, sort_order_in_status := 1 } ],
    statuses := [10, 20] }

/-- A store holding both orientations of the same unordered pair — a state
the ordered-pair unique constraint admits. -/
def exAssocBoth : Store :=
  { contacts := [{ id := 1 }, { id := 2 }],
    associations :=
      [ { id := 10, source_contact_id := 1, target_contact_id := 2 },
        { id := 11, source_contact_id := 2, target_contact_id := 1 } ] }

/-- A store holding one association, stored in the opposite orientation. -/
def exAssocOne : Store :=
  { contacts := [{ id := 1 }, { id := 2 }],
    associations := [ { id := 11, source_contact_id := 2, target_contact_id := 1 } ] }

/-- Scenario 1 store after deleting B (id 2) from the middle of the column:
positions `{0, 2}` remain — no longer contiguous from 0. -/
def exStore1Del : Store :=
  { contacts :=
      [ { id := 1, status_id := some 10, sort_order_in_status := 0 },
        { id := 3, status_id := some 10, sort_order_in_status := 2 } ],
    statuses := [10] }

/-- Scenario 1 store after moving C (id 3) to position 0. -/
def exStore1Front : Store :=
  { contacts :=
      [ { id := 1, status_id := some 10, sort_order_in_status := 1 },
        { id := 2, status_id := some 10, sort_order_in_status := 2 },
        { id := 3, status_id := some 10, sort_order_in_status := 0 } ],
    statuses := [10] }

/-- Scenario 1 store after moving A (id 1) to the out-of-range position 5:
the move succeeds and leaves the column with positions `{5, 0, 1}`. -/
def exStore1Gap : Store :=
  { contacts :=
      [ { id := 1, status_id := some 10, sort_order_in_status := 5 },
        { id := 2, status_id := some 10, sort_order_in_status := 0 },
        { id := 3, status_id := some 10, sort_order_in_status := 1 } ],
    statuses := [10] }

/-- A move request `(contact_id, status_id, position)` applied as a state
transformer: `some` of the new store when the endpoint succeeds, `none`
when it raises. -/
def applyMove (db : Store) (m : Nat × Nat × Nat) : Option Store :=
  match move_contact db m.1 m.2.1 m.2.2 with
  | (db', .ok _) => some db'
  | (_, .error _) => none

/-- A sequence of move requests, each required to succeed. -/
def applyMoves (db : Store) (ms : List (Nat × Nat × Nat)) : Option Store :=
  ms.foldlM applyMove db

/-- The target position of a move is within range of the target column: at
most `N - 1` for a same-column reorder of a column of `N` contacts, at most
`N` for a cross-column move into a column of `N` contacts.  (Vacuously true
when the contact does not exist; such a move fails anyway.) -/
def moveInRange (db : Store) (m : Nat × Nat × Nat) : Bool :=
  match findById db.contacts m.1 with
  | none => true
  | some c =>
    if c.status_id = some m.2.1 then m.2.2 < (colSorts db m.2.1).length
    else m.2.2 ≤ (colSorts db m.2.1).length

/-- Every move of the sequence is in range at the moment it is applied. -/
def seqInRange (db : Store) : List (Nat × Nat × Nat) → Bool
  | [] => true
  | m :: ms =>
    moveInRange db m &&
      match applyMove db m with
      | some db' => seqInRange db' ms
      | none => true

/-- Referential integrity of the `status_id` foreign key: every non-null
status reference points at an existing status row. -/
def WFStore (db : Store) : Prop :=
  ∀ r ∈ db.contacts, ∀ s : Nat, r.status_id = some s → s ∈ db.statuses

instance (db : Store) : Decidable (WFStore db) :=
  List.decidableBAll _ db.contacts

end CRM

namespace CRM

/-! ## Kanban reindexer: characterization theorems -/

/-- Rewriting `move_contact` on the same-column path. -/
theorem move_contact_same_column (db : Store) (cid s new : Nat) (c : Contact)
    (hc : findById db.contacts cid = some c)
    (hs : c.status_id = some s)
    (hmem : db.statuses.contains s = true) :
    move_contact db cid s new =
      ({ db with contacts := db.contacts.map (sameColumnMoveSpec cid s c.sort_order_in_status new) },
        .ok ⟨cid, s, new⟩) := by
  unfold move_contact
  rw [hc]
  simp only [hmem, if_pos rfl, hs, reduceIte]
  rcases Nat.lt_trichotomy c.sort_order_in_status new with hlt | heq | hgt
  · simp only [if_pos hlt, List.map_map]
    refine congrArg (fun l => ({ db with contacts := l }, _)) ?_
    refine List.map_congr_left fun r _ => ?_
    simp only [Function.comp_apply, sameColumnMoveSpec]
    by_cases hid : r.id = cid <;> by_cases hst : r.status_id = some s <;>
      split_ifs <;> simp_all <;> omega
  · simp only [heq, lt_irrefl, reduceIte]
    refine congrArg (fun l => ({ db with contacts := l }, _)) ?_
    refine List.map_congr_left fun r _ => ?_
    simp only [sameColumnMoveSpec]
    by_cases hid : r.id = cid <;> by_cases hst : r.status_id = some s <;>
      split_ifs <;> simp_all <;> omega
  · have hnlt : ¬ c.sort_order_in_status < new := Nat.lt_asymm hgt
    simp only [if_neg hnlt, if_pos hgt, List.map_map]
    refine congrArg (fun l => ({ db with contacts := l }, _)) ?_
    refine List.map_congr_left fun r _ => ?_
    simp only [Function.comp_apply, sameColumnMoveSpec]
    by_cases hid : r.id = cid <;> by_cases hst : r.status_id = some s <;>
      split_ifs <;> simp_all <;> omega

/-- Rewriting `move_contact` on the cross-column path. -/
theorem move_contact_cross_column (db : Store) (cid s new : Nat) (c : Contact)
    (hc : findById db.contacts cid = some c)
    (hs : c.status_id ≠ some s)
    (hmem : db.statuses.contains s = true) :
    move_contact db cid s new =
      ({ db with contacts :=
          db.contacts.map (crossColumnMoveSpec cid s c.status_id c.sort_order_in_status new) },
        .ok ⟨cid, s, new⟩) := by
  unfold move_contact
  rw [hc]
  simp only [hmem, if_neg hs, if_true]
  cases hos : c.status_id with
  | none =>
    refine congrArg (fun l => ({ db with contacts := l }, _)) ?_
    rw [List.map_map]
    refine List.map_congr_left fun r _ => ?_
    simp only [Function.comp_apply, crossColumnMoveSpec, hos, ne_eq, ← and_assoc,
      and_not_self_iff, false_and, if_false]
    by_cases hid : r.id = cid <;> by_cases hst : r.status_id = some s <;>
      split_ifs <;> simp_all
  | some os =>
    have hosne : os ≠ s := fun h => hs (by rw [hos, h])
    refine congrArg (fun l => ({ db with contacts := l }, _)) ?_
    rw [List.map_map, List.map_map]
    refine List.map_congr_left fun r _ => ?_
    simp only [Function.comp_apply, crossColumnMoveSpec, hos]
    by_cases hid : r.id = cid <;> by_cases hst : r.status_id = some os <;>
      split_ifs <;> simp_all

/-- With unique primary keys, any row bearing the looked-up key is the row
`findById` returned. -/
theorem findById_unique {contacts : List Contact} {cid : Nat} {c : Contact}
    (hnd : (contacts.map (·.id)).Nodup)
    (hc : findById contacts cid = some c)
    {r : Contact} (hr : r ∈ contacts) (hid : r.id = cid) : r = c := by
  have hcm : c ∈ contacts := List.mem_of_find?_eq_some hc
  have hcid : c.id = cid := by
    have := List.find?_some hc
    simpa using this
  exact List.inj_on_of_nodup_map hnd hr hcm (by rw [hid, hcid])

/-- The row `findById` returns is a member and bears the key. -/
theorem findById_spec {contacts : List Contact} {cid : Nat} {c : Contact}
    (hc : findById contacts cid = some c) : c ∈ contacts ∧ c.id = cid := by
  refine ⟨List.mem_of_find?_eq_some hc, ?_⟩
  have := List.find?_some hc
  simpa using this

/-- Density of a column implies its sort values are pairwise distinct. -/
theorem DenseCol.nodup {l : List Nat} (h : DenseCol l) : l.Nodup :=
  (List.nodup_range _).perm h.symm

/-- Undoing a same-column move row-by-row: shifting for `old → new` and then
for `new → old` is the identity on any row that is not a same-column sibling
sitting exactly at position `old`. -/
theorem sameColumnMoveSpec_roundtrip (cid s old new : Nat) (r : Contact)
    (hsib : r.id ≠ cid → r.status_id = some s → r.sort_order_in_status ≠ old)
    (hmoved : r.id = cid → r.status_id = some s ∧ r.sort_order_in_status = old) :
    sameColumnMoveSpec cid s new old (sameColumnMoveSpec cid s old new r) = r := by
  by_cases hid : r.id = cid
  · obtain ⟨h1, h2⟩ := hmoved hid
    cases r
    simp_all [sameColumnMoveSpec]
  · by_cases hst : r.status_id = some s
    · have hne := hsib hid hst
      cases r
      simp only [sameColumnMoveSpec] at *
      split_ifs <;> simp_all <;> omega
    · cases r
      simp_all [sameColumnMoveSpec]

/-- `sameColumnMoveSpec` never changes a row's primary key. -/
theorem sameColumnMoveSpec_id (cid s old new : Nat) (r : Contact) :
    (sameColumnMoveSpec cid s old new r).id = r.id := by
  unfold sameColumnMoveSpec; split_ifs <;> rfl

/-- `findById` commutes with a row map that preserves primary keys. -/
theorem findById_map {f : Contact → Contact} (hf : ∀ r, (f r).id = r.id)
    (l : List Contact) (k : Nat) :
    findById (l.map f) k = (findById l k).map f := by
  unfold findById
  have hpred : ((fun c : Contact => c.id == k) ∘ f) = fun c : Contact => c.id == k := by
    funext r
    simp [hf]
  rw [List.find?_map, hpred]

/-- Two contacts of the same status column with equal positions are the same
row, provided the column is duplicate-free. -/
theorem column_inj {db : Store} {s : Nat} (hnd : (colSorts db s).Nodup)
    {r r' : Contact} (hr : r ∈ columnContacts db s) (hr' : r' ∈ columnContacts db s)
    (h : r.sort_order_in_status = r'.sort_order_in_status) : r = r' :=
  List.inj_on_of_nodup_map hnd hr hr' h

/-- Every value of a dense column is below the column's size. -/
theorem DenseCol.lt {l : List Nat} (h : DenseCol l) : ∀ x ∈ l, x < l.length :=
  fun x hx => List.mem_range.1 (h.mem_iff.1 hx)

/-- A duplicate-free list of naturals all below its length is dense. -/
theorem denseCol_of_nodup_lt {l : List Nat} (hnd : l.Nodup)
    (hb : ∀ x ∈ l, x < l.length) : DenseCol l := by
  refine List.perm_of_nodup_nodup_toFinset_eq hnd (List.nodup_range _) ?_
  have hrange : (List.range l.length).toFinset = Finset.range l.length := by
    ext x
    simp
  rw [hrange]
  refine Finset.eq_of_subset_of_card_le
    (fun x hx => Finset.mem_range.2 (hb x (List.mem_toFinset.1 hx))) ?_
  rw [Finset.card_range, List.toFinset_card_of_nodup hnd]

/-- Density only depends on the multiset of values. -/
theorem DenseCol.perm {l l' : List Nat} (hp : l.Perm l') (h : DenseCol l) :
    DenseCol l' := by
  unfold DenseCol at *
  rw [← hp.length_eq]
  exact hp.symm.trans h

/-- Filtering a mapped list, when the map is known to carry the outer
predicate to an inner one pointwise on the list. -/
theorem filter_map_of_eq {l : List Contact} {F : Contact → Contact}
    {p q : Contact → Bool} (h : ∀ r ∈ l, q (F r) = p r) :
    (l.map F).filter q = (l.filter p).map F := by
  induction l with
  | nil => rfl
  | cons a tl ih =>
    have ha := h a (List.mem_cons_self a tl)
    have htl : ∀ r ∈ tl, q (F r) = p r := fun r hr => h r (List.mem_cons_of_mem a hr)
    by_cases hpa : p a = true
    · rw [List.map_cons, List.filter_cons_of_pos (ha.trans hpa),
        List.filter_cons_of_pos hpa, List.map_cons, ih htl]
    · have hqa : ¬ q (F a) = true := by rw [ha]; exact hpa
      rw [List.map_cons, List.filter_cons_of_neg hqa,
        List.filter_cons_of_neg hpa, ih htl]

/-- Splitting one designated row out of a filter: if the primary keys of `l`
are unique, `c ∈ l` and `c` passes the filter, then the filtered list is a
permutation of `c` together with the rows passing the filter that are not
`c`. -/
theorem filter_split_single {l : List Contact} (hnd : (l.map (·.id)).Nodup)
    {c : Contact} (hcl : c ∈ l) {p : Contact → Bool} (hp : p c = true) :
    (l.filter p).Perm (c :: l.filter (fun r => p r && !(r.id == c.id))) := by
  induction l with
  | nil => cases hcl
  | cons a tl ih =>
    simp only [List.map_cons, List.nodup_cons] at hnd
    obtain ⟨ha, hnd'⟩ := hnd
    rcases List.mem_cons.1 hcl with rfl | hctl
    · -- head is the designated row; no row of the tail shares its key
      have htl : ∀ r ∈ tl, (p r && !(r.id == c.id)) = p r := by
        intro r hr
        have : r.id ≠ c.id := fun h => ha (h ▸ List.mem_map_of_mem (·.id) hr)
        simp [this]
      rw [List.filter_cons_of_pos hp,
        List.filter_cons_of_neg (by simp), List.filter_congr htl]
    · -- designated row is in the tail; head keeps its own fate
      have hac : a.id ≠ c.id := by
        intro h
        exact ha (h ▸ List.mem_map_of_mem (·.id) hctl)
      have ihp := ih hnd' hctl
      by_cases hpa : p a = true
      · rw [List.filter_cons_of_pos hpa,
          List.filter_cons_of_pos (by simp [hpa, hac])]
        exact (ihp.cons a).trans (List.Perm.swap c a _)
      · rw [List.filter_cons_of_neg hpa,
          List.filter_cons_of_neg (by simp [hpa])]
        exact ihp

/-- `crossColumnMoveSpec` never changes a row's primary key. -/
theorem crossColumnMoveSpec_id (cid s : Nat) (o : Option Nat) (old new : Nat)
    (r : Contact) : (crossColumnMoveSpec cid s o old new r).id = r.id := by
  unfold crossColumnMoveSpec; split_ifs <;> rfl

/-- The status a row ends with under a same-column move map. -/
theorem sameColumnMoveSpec_status (cid s old new : Nat) (r : Contact) :
    (sameColumnMoveSpec cid s old new r).status_id =
      if r.id = cid then some s else r.status_id := by
  unfold sameColumnMoveSpec; split_ifs <;> rfl

/-- The status a row ends with under a cross-column move map. -/
theorem crossColumnMoveSpec_status (cid s : Nat) (o : Option Nat) (old new : Nat)
    (r : Contact) :
    (crossColumnMoveSpec cid s o old new r).status_id =
      if r.id = cid then some s else r.status_id := by
  unfold crossColumnMoveSpec; split_ifs <;> rfl

/-- The position a row ends with under a same-column move map. -/
theorem sameColumnMoveSpec_sort (cid s old new : Nat) (r : Contact) :
    (sameColumnMoveSpec cid s old new r).sort_order_in_status =
      if r.id = cid then new
      else if r.status_id = some s then
        (if old < new ∧ old < r.sort_order_in_status ∧ r.sort_order_in_status ≤ new then
          r.sort_order_in_status - 1
        else if new < old ∧ new ≤ r.sort_order_in_status ∧ r.sort_order_in_status < old then
          r.sort_order_in_status + 1
        else r.sort_order_in_status)
      else r.sort_order_in_status := by
  unfold sameColumnMoveSpec; split_ifs <;> rfl

/-- The position a row ends with under a cross-column move map. -/
theorem crossColumnMoveSpec_sort (cid s : Nat) (o : Option Nat) (old new : Nat)
    (r : Contact) :
    (crossColumnMoveSpec cid s o old new r).sort_order_in_status =
      if r.id = cid then new
      else if r.status_id = o ∧ r.status_id ≠ none ∧ old < r.sort_order_in_status then
        r.sort_order_in_status - 1
      else if r.status_id = some s ∧ new ≤ r.sort_order_in_status then
        r.sort_order_in_status + 1
      else r.sort_order_in_status := by
  unfold crossColumnMoveSpec; split_ifs <;> rfl

/-- Same-column shift arithmetic: results stay below the column size. -/
theorem adjSame_lt (old new p n : Nat) (hp : p < n) (hnew : new < n) (hold : old < n) :
    (if old < new ∧ old < p ∧ p ≤ new then p - 1
     else if new < old ∧ new ≤ p ∧ p < old then p + 1 else p) < n := by
  split_ifs <;> omega

/-- Same-column shift arithmetic: a sibling not at the vacated position
never lands on the target slot. -/
theorem adjSame_ne_new (old new p : Nat) (hpo : p ≠ old) :
    (if old < new ∧ old < p ∧ p ≤ new then p - 1
     else if new < old ∧ new ≤ p ∧ p < old then p + 1 else p) ≠ new := by
  split_ifs <;> omega

/-- Same-column shift arithmetic: injective away from the vacated
position. -/
theorem adjSame_inj (old new p q : Nat) (hpo : p ≠ old) (hqo : q ≠ old)
    (h : (if old < new ∧ old < p ∧ p ≤ new then p - 1
          else if new < old ∧ new ≤ p ∧ p < old then p + 1 else p) =
        (if old < new ∧ old < q ∧ q ≤ new then q - 1
         else if new < old ∧ new ≤ q ∧ q < old then q + 1 else q)) : p = q := by
  split_ifs at h <;> omega

/-- Gap-closing arithmetic (move out of a column): results stay below the
shrunken column size. -/
theorem adjOut_lt (old p n : Nat) (hp : p < n) (hold : old < n) (hpo : p ≠ old) :
    (if old < p then p - 1 else p) < n - 1 := by
  split_ifs <;> omega

/-- Gap-closing arithmetic: injective away from the vacated position. -/
theorem adjOut_inj (old p q : Nat) (hpo : p ≠ old) (hqo : q ≠ old)
    (h : (if old < p then p - 1 else p) = (if old < q then q - 1 else q)) : p = q := by
  split_ifs at h <;> omega

/-- Slot-opening arithmetic (move into a column): results stay below the
grown column size and avoid the opened slot. -/
theorem adjIn_lt_ne (new p n : Nat) (hp : p < n) :
    (if new ≤ p then p + 1 else p) < n + 1 ∧ (if new ≤ p then p + 1 else p) ≠ new := by
  split_ifs <;> omega

/-- Slot-opening arithmetic: injective. -/
theorem adjIn_inj (new p q : Nat)
    (h : (if new ≤ p then p + 1 else p) = (if new ≤ q then q + 1 else q)) : p = q := by
  split_ifs at h <;> omega

/-- A successful in-range same-column move preserves density of every
status column. -/
theorem dense_after_same_column (db : Store) (cid s new : Nat) (c : Contact)
    (hnd : (db.contacts.map (·.id)).Nodup)
    (hc : findById db.contacts cid = some c)
    (hs : c.status_id = some s)
    (hdense : DenseStore db)
    (hrange : new < (colSorts db s).length) :
    DenseStore
      { db with contacts :=
          db.contacts.map (sameColumnMoveSpec cid s c.sort_order_in_status new) } := by
  intro t ht
  set old := c.sort_order_in_status with hold
  set F := sameColumnMoveSpec cid s old new with hF
  have hstat : ∀ r ∈ db.contacts,
      decide ((F r).status_id = some t) = decide (r.status_id = some t) := by
    intro r hr
    rw [decide_eq_decide, hF, sameColumnMoveSpec_status]
    by_cases hid : r.id = cid
    · rw [if_pos hid, findById_unique hnd hc hr hid, hs]
    · rw [if_neg hid]
  have hcol : colSorts { db with contacts := db.contacts.map F } t
      = (columnContacts db t).map (fun r => (F r).sort_order_in_status) := by
    unfold colSorts columnContacts
    simp only
    rw [filter_map_of_eq hstat, List.map_map]
    rfl
  by_cases hts : t = s
  · subst hts
    rw [hcol]
    have hndc : (colSorts db t).Nodup := (hdense t ht).nodup
    have hndcol : (columnContacts db t).Nodup := hndc.of_map
    have hcm : c ∈ columnContacts db t :=
      List.mem_filter.2 ⟨(findById_spec hc).1, by simp [hs]⟩
    have hlen : (columnContacts db t).length = (colSorts db t).length :=
      (List.length_map _ _).symm
    have holdlt : old < (colSorts db t).length :=
      (hdense t ht).lt _ (List.mem_map_of_mem _ hcm)
    -- a sibling row never sits at the moved contact's position
    have hsib : ∀ r ∈ columnContacts db t, r.id ≠ cid → r.sort_order_in_status ≠ old := by
      intro r hr hid heq
      exact hid ((column_inj hndc hr hcm heq) ▸ (findById_spec hc).2)
    -- row-level value of the new position
    have hval : ∀ r ∈ columnContacts db t, (F r).sort_order_in_status =
        if r.id = cid then new
        else if old < new ∧ old < r.sort_order_in_status ∧ r.sort_order_in_status ≤ new then
          r.sort_order_in_status - 1
        else if new < old ∧ new ≤ r.sort_order_in_status ∧ r.sort_order_in_status < old then
          r.sort_order_in_status + 1
        else r.sort_order_in_status := by
      intro r hr
      have hrs : r.status_id = some t :=
        of_decide_eq_true (List.mem_filter.1 hr).2
      rw [hF, sameColumnMoveSpec_sort, hrs]
      simp
    refine denseCol_of_nodup_lt ?_ ?_
    · refine List.Nodup.map_on ?_ hndcol
      intro r hr r' hr' heq
      rw [hval r hr, hval r' hr'] at heq
      by_cases hid : r.id = cid <;> by_cases hid' : r'.id = cid
      · rw [findById_unique hnd hc (List.mem_filter.1 hr).1 hid,
          findById_unique hnd hc (List.mem_filter.1 hr').1 hid']
      · rw [if_pos hid, if_neg hid'] at heq
        exact absurd heq.symm (adjSame_ne_new old new _ (hsib r' hr' hid'))
      · rw [if_neg hid, if_pos hid'] at heq
        exact absurd heq (adjSame_ne_new old new _ (hsib r hr hid))
      · rw [if_neg hid, if_neg hid'] at heq
        exact column_inj hndc hr hr'
          (adjSame_inj old new _ _ (hsib r hr hid) (hsib r' hr' hid') heq)
    · intro x hx
      rw [List.length_map, hlen]
      obtain ⟨r, hr, rfl⟩ := List.mem_map.1 hx
      rw [hval r hr]
      have hrlt : r.sort_order_in_status < (colSorts db t).length :=
        (hdense t ht).lt _ (List.mem_map_of_mem _ hr)
      by_cases hid : r.id = cid
      · rw [if_pos hid]; exact hrange
      · rw [if_neg hid]
        exact adjSame_lt old new _ _ hrlt hrange holdlt
  · -- any other column is untouched row-by-row
    have hfix : ∀ r ∈ columnContacts db t, F r = r := by
      intro r hr
      obtain ⟨hrm, hrs⟩ := List.mem_filter.1 hr
      have hrs' : r.status_id = some t := of_decide_eq_true hrs
      have hid : r.id ≠ cid := by
        intro h
        have := findById_unique hnd hc hrm h
        rw [this, hs] at hrs'
        exact hts (Option.some.inj hrs').symm
      have hrss : r.status_id ≠ some s := by
        rw [hrs']
        intro h
        exact hts (Option.some.inj h)
      rw [hF]
      unfold sameColumnMoveSpec
      rw [if_neg hid, if_neg hrss]
    have : colSorts { db with contacts := db.contacts.map F } t = colSorts db t := by
      rw [hcol]
      exact List.map_congr_left fun r hr => by rw [hfix r hr]
    rw [this]
    exact hdense t ht

/-- A successful in-range cross-column move preserves density of every
status column. -/
theorem dense_after_cross_column (db : Store) (cid s new : Nat) (c : Contact)
    (hnd : (db.contacts.map (·.id)).Nodup)
    (hc : findById db.contacts cid = some c)
    (hs : c.status_id ≠ some s)
    (hdense : DenseStore db)
    (hmem : s ∈ db.statuses)
    (hwf : WFStore db)
    (hrange : new ≤ (colSorts db s).length) :
    DenseStore
      { db with contacts :=
          db.contacts.map (crossColumnMoveSpec cid s c.status_id c.sort_order_in_status new) } := by
  intro t ht
  set old := c.sort_order_in_status with hold
  set F := crossColumnMoveSpec cid s c.status_id old new with hF
  have hcid : c.id = cid := (findById_spec hc).2
  have hcmem : c ∈ db.contacts := (findById_spec hc).1
  have hcol : colSorts { db with contacts := db.contacts.map F } t
      = (db.contacts.filter (fun r => decide ((F r).status_id = some t))).map
          (fun r => (F r).sort_order_in_status) := by
    unfold colSorts columnContacts
    simp only
    rw [filter_map_of_eq (fun r _ => rfl), List.map_map]
    rfl
  by_cases hts : t = s
  · -- the target column gains the moved contact at the requested slot
    subst hts
    have hq : ∀ r ∈ db.contacts, decide ((F r).status_id = some t) =
        (decide (r.status_id = some t) || (r.id == cid)) := by
      intro r hr
      rw [hF, crossColumnMoveSpec_status]
      by_cases hid : r.id = cid
      · simp [hid]
      · simp [hid]
    have hsplit := filter_split_single (c := c) hnd hcmem
      (p := fun r => decide (r.status_id = some t) || (r.id == cid)) (by simp [hcid])
    beta_reduce at hsplit
    have hrest : db.contacts.filter
        (fun r => (decide (r.status_id = some t) || (r.id == cid)) && !(r.id == c.id))
        = columnContacts db t := by
      refine List.filter_congr ?_
      intro r hr
      by_cases hid : r.id = cid
      · have hrc : r = c := findById_unique hnd hc hr hid
        have h0 : (r.id == cid) = true := by simp [hid]
        have h1 : (r.id == c.id) = true := by simp [hrc]
        have h2 : decide (r.status_id = some t) = false :=
          decide_eq_false (fun h => hs (by rw [← hrc]; exact h))
        rw [h0, h1, h2]
        rfl
      · have h1 : (r.id == c.id) = false := by
          rw [hcid]
          exact beq_eq_false_iff_ne.2 hid
        have h2 : (r.id == cid) = false := beq_eq_false_iff_ne.2 hid
        rw [h1, h2]
        simp
    rw [hrest] at hsplit
    rw [hcol, List.filter_congr hq]
    have hmapped := hsplit.map (fun r => (F r).sort_order_in_status)
    refine DenseCol.perm hmapped.symm ?_
    rw [List.map_cons]
    have hFcsort : (F c).sort_order_in_status = new := by
      rw [hF, crossColumnMoveSpec_sort, if_pos hcid]
    rw [hFcsort]
    -- siblings of the target column are shifted by the slot-opening map
    have hndc : (colSorts db t).Nodup := (hdense t ht).nodup
    have hndcol : (columnContacts db t).Nodup := hndc.of_map
    have hval : ∀ r ∈ columnContacts db t, (F r).sort_order_in_status =
        if new ≤ r.sort_order_in_status then r.sort_order_in_status + 1
        else r.sort_order_in_status := by
      intro r hr
      obtain ⟨hrm, hrs⟩ := List.mem_filter.1 hr
      have hrs' : r.status_id = some t := of_decide_eq_true hrs
      have hid : r.id ≠ cid := by
        intro h
        rw [findById_unique hnd hc hrm h] at hrs'
        exact hs hrs'
      rw [hF, crossColumnMoveSpec_sort, if_neg hid, hrs',
        if_neg (by rintro ⟨h1, -⟩; exact hs h1.symm)]
      simp
    refine denseCol_of_nodup_lt ?_ ?_
    · rw [List.nodup_cons]
      constructor
      · intro hmm
        obtain ⟨r, hr, hr2⟩ := List.mem_map.1 hmm
        rw [hval r hr] at hr2
        exact absurd hr2 (adjIn_lt_ne new r.sort_order_in_status
          ((colSorts db t).length) ((hdense t ht).lt _ (List.mem_map_of_mem _ hr))).2
      · refine List.Nodup.map_on ?_ hndcol
        intro r hr r' hr' heq
        rw [hval r hr, hval r' hr'] at heq
        exact column_inj hndc hr hr' (adjIn_inj new _ _ heq)
    · intro x hx
      simp only [List.length_cons, List.length_map]
      have hlen : (columnContacts db t).length = (colSorts db t).length :=
        (List.length_map _ _).symm
      rcases List.mem_cons.1 hx with rfl | hx'
      · omega
      · obtain ⟨r, hr, rfl⟩ := List.mem_map.1 hx'
        rw [hval r hr]
        have := (hdense t ht).lt _ (List.mem_map_of_mem (·.sort_order_in_status) hr)
        have h2 := (adjIn_lt_ne new r.sort_order_in_status ((colSorts db t).length) this).1
        omega
  · by_cases hct : c.status_id = some t
    · -- the old column loses the moved contact and closes the gap
      have hq : ∀ r ∈ db.contacts, decide ((F r).status_id = some t) =
          (decide (r.status_id = some t) && !(r.id == c.id)) := by
        intro r hr
        rw [hF, crossColumnMoveSpec_status]
        by_cases hid : r.id = cid
        · have hrc : r = c := findById_unique hnd hc hr hid
          have h1 : (r.id == c.id) = true := by simp [hrc]
          have h2 : decide ((if r.id = cid then some s else r.status_id) = some t) = false := by
            rw [if_pos hid]
            exact decide_eq_false (fun h => hts (Option.some.inj h).symm)
          have h3 : decide (r.status_id = some t) = true :=
            decide_eq_true (by rw [hrc]; exact hct)
          rw [h1, h2, h3]
          rfl
        · have hneq : (r.id == c.id) = false := by
            rw [hcid]
            exact beq_eq_false_iff_ne.2 hid
          rw [if_neg hid, hneq]
          simp
      rw [hcol, List.filter_congr hq]
      have hsplit := filter_split_single (c := c) hnd hcmem
        (p := fun r => decide (r.status_id = some t)) (by simp [hct])
      -- the split exhibits the old column as the moved row plus the rest
      have hndc : (colSorts db t).Nodup := (hdense t ht).nodup
      have hlenc : (columnContacts db t).length = (colSorts db t).length :=
        (List.length_map _ _).symm
      have hcmemcol : c ∈ columnContacts db t :=
        List.mem_filter.2 ⟨hcmem, by simp [hct]⟩
      have holdlt : old < (colSorts db t).length :=
        (hdense t ht).lt _ (List.mem_map_of_mem _ hcmemcol)
      set rest := db.contacts.filter
        (fun r => decide (r.status_id = some t) && !(r.id == c.id)) with hrest
      have hlenrest : (columnContacts db t).length = rest.length + 1 := by
        have := hsplit.length_eq
        simpa [columnContacts] using this
      have hrestmem : ∀ r ∈ rest, r ∈ columnContacts db t ∧ r.id ≠ cid := by
        intro r hr
        obtain ⟨hrm, hrp⟩ := List.mem_filter.1 hr
        simp only [Bool.and_eq_true] at hrp
        obtain ⟨h1, h2⟩ := hrp
        have h1' : r.status_id = some t := of_decide_eq_true h1
        refine ⟨List.mem_filter.2 ⟨hrm, by simp [h1']⟩, ?_⟩
        intro hidr
        rw [Bool.not_eq_true', beq_eq_false_iff_ne] at h2
        exact h2 (hidr.trans hcid.symm)
      have hrestnd : rest.Nodup := by
        have : rest.Sublist db.contacts := List.filter_sublist _
        exact (List.Nodup.of_map _ hnd).sublist this
      have hval : ∀ r ∈ rest, (F r).sort_order_in_status =
          if old < r.sort_order_in_status then r.sort_order_in_status - 1
          else r.sort_order_in_status := by
        intro r hr
        obtain ⟨hrcol, hid⟩ := hrestmem r hr
        have hrs' : r.status_id = some t :=
          of_decide_eq_true (List.mem_filter.1 hrcol).2
        rw [hF, crossColumnMoveSpec_sort, if_neg hid]
        by_cases hlt : old < r.sort_order_in_status
        · rw [if_pos ⟨hrs'.trans hct.symm, by simp [hrs'], hlt⟩, if_pos hlt]
        · rw [if_neg (by rintro ⟨-, -, h3⟩; exact hlt h3),
            if_neg (by rintro ⟨h1, -⟩; exact hts (Option.some.inj (hrs' ▸ h1))),
            if_neg hlt]
      have hsib : ∀ r ∈ rest, r.sort_order_in_status ≠ old := by
        intro r hr heq
        obtain ⟨hrcol, hid⟩ := hrestmem r hr
        exact hid ((column_inj hndc hrcol hcmemcol heq) ▸ hcid)
      refine denseCol_of_nodup_lt ?_ ?_
      · refine List.Nodup.map_on ?_ hrestnd
        intro r hr r' hr' heq
        rw [hval r hr, hval r' hr'] at heq
        exact column_inj hndc (hrestmem r hr).1 (hrestmem r' hr').1
          (adjOut_inj old _ _ (hsib r hr) (hsib r' hr') heq)
      · intro x hx
        rw [List.length_map]
        obtain ⟨r, hr, rfl⟩ := List.mem_map.1 hx
        rw [hval r hr]
        have hrlt : r.sort_order_in_status < (colSorts db t).length :=
          (hdense t ht).lt _ (List.mem_map_of_mem _ (hrestmem r hr).1)
        have := adjOut_lt old r.sort_order_in_status ((colSorts db t).length)
          hrlt holdlt (hsib r hr)
        omega
    · -- any other column is untouched
      have hq : ∀ r ∈ db.contacts, decide ((F r).status_id = some t) =
          decide (r.status_id = some t) := by
        intro r hr
        rw [hF, crossColumnMoveSpec_status]
        by_cases hid : r.id = cid
        · have hrc : r = c := findById_unique hnd hc hr hid
          rw [if_pos hid, decide_eq_decide]
          constructor
          · intro h
            exact absurd (Option.some.inj h) (fun hh => hts hh.symm)
          · intro h
            exact absurd (by rw [hrc] at h; exact h) hct
        · rw [if_neg hid]
      rw [hcol, List.filter_congr hq]
      show DenseCol ((columnContacts db t).map (fun r => (F r).sort_order_in_status))
      have hfix : ∀ r ∈ columnContacts db t,
          (F r).sort_order_in_status = r.sort_order_in_status := by
        intro r hr
        obtain ⟨hrm, hrs⟩ := List.mem_filter.1 hr
        have hrs' : r.status_id = some t := of_decide_eq_true hrs
        have hid : r.id ≠ cid := by
          intro h
          rw [findById_unique hnd hc hrm h] at hrs'
          exact hct hrs'
        rw [hF, crossColumnMoveSpec_sort, if_neg hid, hrs']
        rw [if_neg (by rintro ⟨h1, -⟩; exact hct h1.symm)]
        rw [if_neg (by rintro ⟨h1, -⟩; exact hts (Option.some.inj h1))]
      have : (columnContacts db t).map (fun r => (F r).sort_order_in_status)
          = colSorts db t :=
        List.map_congr_left fun r hr => hfix r hr
      rw [this]
      exact hdense t ht

/-! ## Claim theorems for the Kanban reindexer -/

/-- C1.  Same-column move: with current position `old` and target `new`,
exactly the siblings with position in `(old, new]` are decremented when
`old < new`, exactly those in `[new, old)` are incremented when `old > new`,
every other row keeps its position, and the moved contact ends at `new`
with the same status — the store is mapped row-by-row through
`sameColumnMoveSpec`, and the response reports the target slot. -/
theorem same_column_move_characterization (db : Store) (cid s new : Nat) (c : Contact)
    (hc : findById db.contacts cid = some c)
    (hs : c.status_id = some s)
    (hmem : db.statuses.contains s = true) :
    move_contact db cid s new =
      ({ db with contacts :=
          db.contacts.map (sameColumnMoveSpec cid s c.sort_order_in_status new) },
        .ok ⟨cid, s, new⟩) :=
  move_contact_same_column db cid s new c hc hs hmem

/-- Witness for C1: spec scenario 1 — status "Active" holds A,B,C at 0,1,2;
moving C (position 2) to position 0 yields C=0, A=1, B=2. -/
theorem same_column_move_characterization_witness :
    findById exStore1.contacts 3 = some { id := 3, status_id := some 10, sort_order_in_status := 2 } ∧
    ({ id := 3, status_id := some 10, sort_order_in_status := 2 } : Contact).status_id = some 10 ∧
    exStore1.statuses.contains 10 = true ∧
    (move_contact exStore1 3 10 0).1.contacts =
      [ { id := 1, status_id := some 10, sort_order_in_status := 1 },
        { id := 2, status_id := some 10, sort_order_in_status := 2 },
        { id := 3, status_id := some 10, sort_order_in_status := 0 } ] :=
  ⟨rfl, rfl, rfl, by
    rw [same_column_move_characterization exStore1 3 10 0
      { id := 3, status_id := some 10, sort_order_in_status := 2 } rfl rfl rfl]
    rfl⟩

/-- C2.  Cross-column move: the siblings remaining in the (non-null) old
status with position `> old` are decremented, the siblings in the target
status with position `≥ new` are incremented, every other row is unchanged,
and the moved contact's `status_id` and `sort_order_in_status` are set to
the target status and position — the store is mapped row-by-row through
`crossColumnMoveSpec`. -/
theorem cross_column_move_characterization (db : Store) (cid s new : Nat) (c : Contact)
    (hc : findById db.contacts cid = some c)
    (hs : c.status_id ≠ some s)
    (hmem : db.statuses.contains s = true) :
    move_contact db cid s new =
      ({ db with contacts :=
          db.contacts.map (crossColumnMoveSpec cid s c.status_id c.sort_order_in_status new) },
        .ok ⟨cid, s, new⟩) :=
  move_contact_cross_column db cid s new c hc hs hmem

/-- Witness for C2: spec scenario 2 — "New" holds A at 0, "Active" holds B,C
at 0,1; moving A to "Active" position 1 empties "New" and yields B=0, A=1,
C=2. -/
theorem cross_column_move_characterization_witness :
    findById exStore2.contacts 1 = some { id := 1, status_id := some 20, sort_order_in_status := 0 } ∧
    ({ id := 1, status_id := some 20, sort_order_in_status := 0 } : Contact).status_id ≠ some 10 ∧
    exStore2.statuses.contains 10 = true ∧
    (move_contact exStore2 1 10 1).1.contacts =
      [ { id := 1, status_id := some 10, sort_order_in_status := 1 },
        { id := 2, status_id := some 10, sort_order_in_status := 0 },
        { id := 3, status_id := some 10, sort_order_in_status := 2 } ] :=
  ⟨rfl, by decide, rfl, by
    rw [cross_column_move_characterization exStore2 1 10 1
      { id := 1, status_id := some 20, sort_order_in_status := 0 } rfl (by decide) rfl]
    rfl⟩

/-- C4.  Idempotent no-op: moving a contact to its own current status and
current position leaves the whole store unchanged — no sibling shifts, and
the final write restores the moved row's own fields. -/
theorem move_noop (db : Store) (cid s : Nat) (c : Contact)
    (hnd : (db.contacts.map (·.id)).Nodup)
    (hc : findById db.contacts cid = some c)
    (hs : c.status_id = some s)
    (hmem : db.statuses.contains s = true) :
    move_contact db cid s c.sort_order_in_status =
      (db, .ok ⟨cid, s, c.sort_order_in_status⟩) := by
  rw [move_contact_same_column db cid s c.sort_order_in_status c hc hs hmem]
  have hmap : db.contacts.map
      (sameColumnMoveSpec cid s c.sort_order_in_status c.sort_order_in_status) = db.contacts := by
    have h1 : ∀ r ∈ db.contacts,
        sameColumnMoveSpec cid s c.sort_order_in_status c.sort_order_in_status r = id r := by
      intro r hr
      by_cases hid : r.id = cid
      · have hrc : r = c := findById_unique hnd hc hr hid
        subst hrc
        cases r
        simp_all [sameColumnMoveSpec]
      · cases r
        simp only [sameColumnMoveSpec, id] at *
        split_ifs <;> simp_all <;> omega
    rw [List.map_congr_left h1, List.map_id]
  rw [hmap]

/-- Witness for C4: in scenario 1, moving B (id 2, position 1 of "Active")
to its own slot returns the store unchanged. -/
theorem move_noop_witness :
    (exStore1.contacts.map (·.id)).Nodup ∧
    findById exStore1.contacts 2 = some { id := 2, status_id := some 10, sort_order_in_status := 1 } ∧
    move_contact exStore1 2 10 1 = (exStore1, .ok ⟨2, 10, 1⟩) :=
  ⟨by decide, rfl,
    move_noop exStore1 2 10 { id := 2, status_id := some 10, sort_order_in_status := 1 }
      (by decide) rfl rfl rfl⟩

/-- C6.  Fail-fast NotFound atomicity: a move whose contact id does not
exist fails with `contactNotFound`, and a move whose target status does not
exist fails with `statusNotFound`; in both cases the store is returned
exactly as it was — no row is modified. -/
theorem move_not_found_fail_fast :
    (∀ (db : Store) (cid sid pos : Nat), findById db.contacts cid = none →
      move_contact db cid sid pos = (db, .error (.contactNotFound cid))) ∧
    (∀ (db : Store) (cid sid pos : Nat) (c : Contact),
      findById db.contacts cid = some c → db.statuses.contains sid = false →
      move_contact db cid sid pos = (db, .error (.statusNotFound sid))) := by
  constructor
  · intro db cid sid pos h
    unfold move_contact
    rw [h]
  · intro db cid sid pos c h hs
    unfold move_contact
    rw [h]
    simp only [hs, Bool.false_eq_true, if_false]

/-- Witness for C6: in scenario 1, moving absent contact 99 and moving
contact 1 to absent status 99 both fail without touching the store. -/
theorem move_not_found_fail_fast_witness :
    findById exStore1.contacts 99 = none ∧
    move_contact exStore1 99 10 0 = (exStore1, .error (.contactNotFound 99)) ∧
    exStore1.statuses.contains 99 = false ∧
    move_contact exStore1 1 99 0 = (exStore1, .error (.statusNotFound 99)) :=
  ⟨rfl, move_not_found_fail_fast.1 exStore1 99 10 0 rfl, rfl,
    move_not_found_fail_fast.2 exStore1 1 99 0
      { id := 1, status_id := some 10, sort_order_in_status := 0 } rfl rfl⟩

/-- C5.  Reversibility: in a dense column, moving contact X from its
position P1 to any in-range position P2 and then back to P1 restores the
entire store — the two moves compose to the identity. -/
theorem move_roundtrip (db : Store) (cid s p2 : Nat) (c : Contact)
    (hnd : (db.contacts.map (·.id)).Nodup)
    (hc : findById db.contacts cid = some c)
    (hs : c.status_id = some s)
    (hmem : db.statuses.contains s = true)
    (hdense : DenseCol (colSorts db s))
    (hp1 : c.sort_order_in_status < (colSorts db s).length)
    (hp2 : p2 < (colSorts db s).length) :
    ∃ db1 : Store,
      move_contact db cid s p2 = (db1, .ok ⟨cid, s, p2⟩) ∧
      move_contact db1 cid s c.sort_order_in_status =
        (db, .ok ⟨cid, s, c.sort_order_in_status⟩) := by
  refine ⟨_, move_contact_same_column db cid s p2 c hc hs hmem, ?_⟩
  set old := c.sort_order_in_status with hold
  set f := sameColumnMoveSpec cid s old p2 with hf
  have hfid : ∀ r, (f r).id = r.id := sameColumnMoveSpec_id cid s old p2
  have hfind : findById (db.contacts.map f) cid = some (f c) := by
    rw [findById_map hfid, hc]; rfl
  have hfc : f c = { c with status_id := some s, sort_order_in_status := p2 } := by
    have : c.id = cid := (findById_spec hc).2
    simp [hf, sameColumnMoveSpec, this]
  have hfcs : (f c).status_id = some s := by rw [hfc]
  have h2 := move_contact_same_column
    ({ db with contacts := db.contacts.map f }) cid s old (f c) hfind hfcs hmem
  have hsort : (f c).sort_order_in_status = p2 := by rw [hfc]
  rw [hsort] at h2
  rw [h2]
  have hback : (db.contacts.map f).map (sameColumnMoveSpec cid s p2 old) = db.contacts := by
    rw [List.map_map]
    have h1 : ∀ r ∈ db.contacts,
        (sameColumnMoveSpec cid s p2 old ∘ f) r = id r := by
      intro r hr
      have hcid : c.id = cid := (findById_spec hc).2
      have hcm : c ∈ columnContacts db s :=
        List.mem_filter.2 ⟨(findById_spec hc).1, by simp [hs]⟩
      refine sameColumnMoveSpec_roundtrip cid s old p2 r ?_ ?_
      · intro hid hst hsort
        have hrm : r ∈ columnContacts db s := List.mem_filter.2 ⟨hr, by simp [hst]⟩
        exact hid ((column_inj hdense.nodup hrm hcm hsort) ▸ hcid)
      · intro hid
        have hrc : r = c := findById_unique hnd hc hr hid
        exact ⟨hrc ▸ hs, hrc ▸ rfl⟩
    rw [List.map_congr_left h1, List.map_id]
  rw [hback]

/-- Witness for C5: in scenario 1, moving A (position 0) to position 2 and
back to position 0 restores the store. -/
theorem move_roundtrip_witness :
    (exStore1.contacts.map (·.id)).Nodup ∧ DenseCol (colSorts exStore1 10) ∧
    (0 : Nat) < (colSorts exStore1 10).length ∧ (2 : Nat) < (colSorts exStore1 10).length ∧
    ∃ db1 : Store,
      move_contact exStore1 1 10 2 = (db1, .ok ⟨1, 10, 2⟩) ∧
      move_contact db1 1 10 0 = (exStore1, .ok ⟨1, 10, 0⟩) :=
  ⟨by decide, by decide, by decide, by decide,
    move_roundtrip exStore1 1 10 2 { id := 1, status_id := some 10, sort_order_in_status := 0 }
      (by decide) rfl rfl rfl (by decide) (by decide) (by decide)⟩

/-- A successful, in-range move preserves density, key uniqueness and the
status foreign key. -/
theorem applyMove_preserves (db db' : Store) (m : Nat × Nat × Nat)
    (hnd : (db.contacts.map (·.id)).Nodup)
    (hwf : WFStore db)
    (hdense : DenseStore db)
    (hr : moveInRange db m = true)
    (happ : applyMove db m = some db') :
    DenseStore db' ∧ (db'.contacts.map (·.id)).Nodup ∧ WFStore db' := by
  obtain ⟨cid, sid, pos⟩ := m
  unfold applyMove at happ
  cases hfc : findById db.contacts cid with
  | none =>
    unfold move_contact at happ
    rw [hfc] at happ
    simp at happ
  | some c =>
    cases hcont : db.statuses.contains sid with
    | false =>
      unfold move_contact at happ
      rw [hfc] at happ
      simp only [hcont, Bool.false_eq_true, if_false] at happ
      simp at happ
    | true =>
      have hsidmem : sid ∈ db.statuses := by simpa using hcont
      have hr' : (if c.status_id = some sid then decide (pos < (colSorts db sid).length)
          else decide (pos ≤ (colSorts db sid).length)) = true := by
        unfold moveInRange at hr
        rw [hfc] at hr
        exact hr
      by_cases hsame : c.status_id = some sid
      · rw [move_contact_same_column db cid sid pos c hfc hsame hcont] at happ
        simp only [Option.some.injEq] at happ
        subst happ
        rw [if_pos hsame] at hr'
        have hpos : pos < (colSorts db sid).length := of_decide_eq_true hr'
        refine ⟨dense_after_same_column db cid sid pos c hnd hfc hsame hdense hpos, ?_, ?_⟩
        · simp only [List.map_map]
          have : ∀ r ∈ db.contacts,
              ((·.id) ∘ sameColumnMoveSpec cid sid c.sort_order_in_status pos) r = r.id :=
            fun r _ => sameColumnMoveSpec_id cid sid c.sort_order_in_status pos r
          rw [List.map_congr_left this]
          exact hnd
        · intro r' hr' s' hs'
          obtain ⟨r, hrm, rfl⟩ := List.mem_map.1 hr'
          rw [sameColumnMoveSpec_status] at hs'
          by_cases hid : r.id = cid
          · rw [if_pos hid] at hs'
            exact (Option.some.inj hs') ▸ hsidmem
          · rw [if_neg hid] at hs'
            exact hwf r hrm s' hs'
      · rw [move_contact_cross_column db cid sid pos c hfc hsame hcont] at happ
        simp only [Option.some.injEq] at happ
        subst happ
        rw [if_neg hsame] at hr'
        have hpos : pos ≤ (colSorts db sid).length := of_decide_eq_true hr'
        refine ⟨dense_after_cross_column db cid sid pos c hnd hfc hsame hdense
          hsidmem hwf hpos, ?_, ?_⟩
        · simp only [List.map_map]
          have : ∀ r ∈ db.contacts,
              ((·.id) ∘ crossColumnMoveSpec cid sid c.status_id c.sort_order_in_status pos) r
                = r.id :=
            fun r _ => crossColumnMoveSpec_id cid sid c.status_id c.sort_order_in_status pos r
          rw [List.map_congr_left this]
          exact hnd
        · intro r' hr' s' hs'
          obtain ⟨r, hrm, rfl⟩ := List.mem_map.1 hr'
          rw [crossColumnMoveSpec_status] at hs'
          by_cases hid : r.id = cid
          · rw [if_pos hid] at hs'
            exact (Option.some.inj hs') ▸ hsidmem
          · rw [if_neg hid] at hs'
            exact hwf r hrm s' hs'

/-- Density, key uniqueness and the status foreign key are preserved by any
sequence of successful in-range moves. -/
theorem applyMoves_preserves (ms : List (Nat × Nat × Nat)) :
    ∀ db db' : Store, (db.contacts.map (·.id)).Nodup → WFStore db → DenseStore db →
      seqInRange db ms = true → applyMoves db ms = some db' →
      DenseStore db' ∧ (db'.contacts.map (·.id)).Nodup ∧ WFStore db' := by
  induction ms with
  | nil =>
    intro db db' hnd hwf hdense _ happ
    unfold applyMoves at happ
    simp only [List.foldlM_nil, Option.pure_def, Option.some.injEq] at happ
    subst happ
    exact ⟨hdense, hnd, hwf⟩
  | cons m ms ih =>
    intro db db' hnd hwf hdense hseq happ
    unfold applyMoves at happ
    rw [List.foldlM_cons] at happ
    unfold seqInRange at hseq
    rw [Bool.and_eq_true] at hseq
    obtain ⟨hr1, hrest⟩ := hseq
    cases h1 : applyMove db m with
    | none =>
      rw [h1] at happ
      simp at happ
    | some db1 =>
      rw [h1] at happ
      simp only [Option.bind_eq_bind, Option.some_bind] at happ
      rw [h1] at hrest
      obtain ⟨hd1, hn1, hw1⟩ := applyMove_preserves db db1 m hnd hwf hdense hr1 h1
      exact ih db1 db' hn1 hw1 hd1 hrest happ

/-- C3 counterexample.  The density invariant does not survive every
successful move: target positions are not range-checked, so from the dense
scenario-1 store a single successful move of contact A to position 5 leaves
column "Active" with positions `{5, 0, 1}` — a gap. -/
theorem density_invariant_counterexample :
    DenseStore exStore1 ∧
    applyMoves exStore1 [(1, 10, 5)] = some exStore1Gap ∧
    ¬ DenseStore exStore1Gap :=
  ⟨by decide, by decide, by decide⟩

/-- C3 (amended).  For every sequence of successful moves starting from a
store with unique keys, intact status references and dense columns, and in
which every move's target position is in range at the moment it is applied
(`< N` same-column, `≤ N` cross-column), every status column's positions
remain exactly `{0, …, count-1}` — no duplicates, no gaps. -/
theorem density_invariant (db db' : Store) (ms : List (Nat × Nat × Nat))
    (hnd : (db.contacts.map (·.id)).Nodup)
    (hwf : WFStore db)
    (hdense : DenseStore db)
    (hseq : seqInRange db ms = true)
    (happ : applyMoves db ms = some db') :
    DenseStore db' :=
  (applyMoves_preserves ms db db' hnd hwf hdense hseq happ).1

/-- Witness for C3 (amended): the scenario-1 move of C to position 0 is in
range, succeeds, and the resulting store is dense. -/
theorem density_invariant_witness :
    (exStore1.contacts.map (·.id)).Nodup ∧ WFStore exStore1 ∧ DenseStore exStore1 ∧
    seqInRange exStore1 [(3, 10, 0)] = true ∧
    applyMoves exStore1 [(3, 10, 0)] = some exStore1Front ∧
    DenseStore exStore1Front :=
  ⟨by decide, by decide, by decide, by decide, by decide,
    density_invariant exStore1 exStore1Front [(3, 10, 0)]
      (by decide) (by decide) (by decide) (by decide) (by decide)⟩

/-! ## Claim theorems for the graph service -/

/-- C10.  Every call of the local-database `get_graph` fails while
constructing its response: both return paths call
`GraphResponse(nodes=…, edges=…)` without the required `clusters` field,
so pydantic validation rejects the construction — no call returns a graph
value. -/
theorem get_graph_always_fails (db : Store) (filters : GraphFilters)
    (signUrl : String → Option String) :
    get_graph db filters signUrl = .error .validationError := by
  unfold get_graph graphResult
  split
  · split
    · rfl
    · rfl
  · rfl

/-- C9.  Deleting a contact removes only that contact together with its
cascade-owned association and occupation rows; every other contact row —
`status_id` and `sort_order_in_status` included — survives verbatim, so no
sibling positions are compacted.  Concretely, deleting B from the middle of
the dense scenario-1 column leaves positions `{0, 2}`: not a contiguous
range from 0. -/
theorem delete_contact_no_compaction :
    (∀ (db : Store) (cid : Nat) (c : Contact), findById db.contacts cid = some c →
      delete_contact db cid =
        ({ db with
            contacts := db.contacts.filter fun r => r.id ≠ cid,
            associations := db.associations.filter fun a =>
              a.source_contact_id ≠ cid ∧ a.target_contact_id ≠ cid,
            contact_occupations := db.contact_occupations.filter fun co =>
              co.contact_id ≠ cid }, .ok ()) ∧
      ∀ r ∈ db.contacts, r.id ≠ cid → r ∈ (delete_contact db cid).1.contacts) ∧
    delete_contact exStore1 2 = (exStore1Del, .ok ()) ∧
    ¬ DenseStore exStore1Del := by
  refine ⟨?_, rfl, by decide⟩
  intro db cid c h
  have heq : delete_contact db cid =
      ({ db with
          contacts := db.contacts.filter fun r => r.id ≠ cid,
          associations := db.associations.filter fun a =>
            a.source_contact_id ≠ cid ∧ a.target_contact_id ≠ cid,
          contact_occupations := db.contact_occupations.filter fun co =>
            co.contact_id ≠ cid }, .ok ()) := by
    unfold delete_contact
    rw [h]
  refine ⟨heq, ?_⟩
  intro r hr hne
  rw [heq]
  exact List.mem_filter.2 ⟨hr, by simp [hne]⟩

/-- Witness for C9: deleting B (id 2) from scenario 1. -/
theorem delete_contact_no_compaction_witness :
    findById exStore1.contacts 2 =
      some { id := 2, status_id := some 10, sort_order_in_status := 1 } ∧
    delete_contact exStore1 2 =
      ({ exStore1 with
          contacts := exStore1.contacts.filter fun r => r.id ≠ 2,
          associations := exStore1.associations.filter fun a =>
            a.source_contact_id ≠ 2 ∧ a.target_contact_id ≠ 2,
          contact_occupations := exStore1.contact_occupations.filter fun co =>
            co.contact_id ≠ 2 }, .ok ()) :=
  ⟨rfl, (delete_contact_no_compaction.1 exStore1 2
    { id := 2, status_id := some 10, sort_order_in_status := 1 } rfl).1⟩

/-- C8 counterexample.  When both orientations of a pair are on file — a
state the ordered-pair unique constraint admits, as the spec itself warns —
`create_edge(A, B)` raises SQLAlchemy's `MultipleResultsFound` from
`scalar_one_or_none`, not the edge-already-exists error, even though a
matching record exists; the claimed "if and only if" fails. -/
theorem create_edge_exists_iff_counterexample :
    ({ id := 10, source_contact_id := 1, target_contact_id := 2 } : ContactAssociation)
        ∈ exAssocBoth.associations ∧
    findById exAssocBoth.contacts 1 = some { id := 1 } ∧
    findById exAssocBoth.contacts 2 = some { id := 2 } ∧
    create_edge exAssocBoth 1 2 none 99 = (exAssocBoth, .error .multipleResultsFound) ∧
    ApiError.multipleResultsFound ≠ ApiError.graphEdgeExists 1 2 :=
  ⟨by decide, rfl, rfl, rfl, by decide⟩

/-- C8 (amended).  For existing contacts A and B: `create_edge(A, B)`
raises the edge-already-exists error iff exactly one association record
matches `(A, B)` or `(B, A)`; with two or more matching records it raises
`MultipleResultsFound` instead; whenever it raises any error the
association table is unchanged; and when the check finds nothing and
`A ≠ B`, exactly one new record `(A, B)` is appended. -/
theorem create_edge_symmetric_uniqueness (db : Store) (A B : Nat)
    (lab : Option String) (fid : Nat) (a b : Contact)
    (hA : findById db.contacts A = some a)
    (hB : findById db.contacts B = some b) :
    ((create_edge db A B lab fid).2 = .error (.graphEdgeExists A B) ↔
      (matchingEdges db A B).length = 1) ∧
    (∀ e : ApiError, (create_edge db A B lab fid).2 = .error e →
      (create_edge db A B lab fid).1 = db) ∧
    (matchingEdges db A B = [] → A ≠ B →
      create_edge db A B lab fid =
        ({ db with associations := db.associations ++
            [{ id := fid, source_contact_id := A, target_contact_id := B,
               label := lab }] },
          .ok ⟨fid, A, B, lab⟩)) := by
  unfold create_edge
  rw [hA, hB]
  cases hm : matchingEdges db A B with
  | nil =>
    simp only [scalar_one_or_none]
    by_cases hab : A = B
    · rw [if_pos hab]
      refine ⟨by simp, fun e _ => by trivial, ?_⟩
      intro _ hne
      exact absurd hab hne
    · rw [if_neg hab]
      refine ⟨by simp, ?_, fun _ _ => by trivial⟩
      intro e he
      simp at he
  | cons a1 tl =>
    cases tl with
    | nil =>
      simp only [scalar_one_or_none]
      refine ⟨by simp, fun e _ => by trivial, ?_⟩
      intro habs
      exact absurd habs (by simp)
    | cons a2 tl2 =>
      simp only [scalar_one_or_none]
      refine ⟨by simp, fun e _ => by trivial, ?_⟩
      intro habs
      exact absurd habs (by simp)

/-! ## Clusterer lemmas -/

/-- Pushing a singleton grows the structure by one. -/
theorem push_size (u : Batteries.UnionFind) : u.push.size = u.size + 1 := by
  simp [Batteries.UnionFind.size]

/-- Linking preserves the number of nodes. -/
theorem link_size (self : Batteries.UnionFind) (x y : Fin self.size) (yroot) :
    (self.link x y yroot).size = self.size := by
  show (self.link x y yroot).arr.size = self.arr.size
  rw [Batteries.UnionFind.arr_link, Batteries.UnionFind.linkAux_size]

/-- Union preserves the number of nodes. -/
theorem union_size (self : Batteries.UnionFind) (x y : Fin self.size) :
    (self.union x y).size = self.size := by
  simp only [Batteries.UnionFind.union]
  rw [link_size, Batteries.UnionFind.find_size, Batteries.UnionFind.find_size]

/-- The initial structure has one node per contact. -/
theorem ufInit_size (n : Nat) : (ufInit n).size = n := by
  induction n with
  | zero => rfl
  | succ n ih =>
    show (ufInit n).push.size = n + 1
    rw [push_size, ih]

/-- Before any union, the classes are singletons. -/
theorem ufInit_equiv (n a b : Nat) : (ufInit n).Equiv a b ↔ a = b := by
  induction n with
  | zero => exact Batteries.UnionFind.equiv_empty
  | succ n ih =>
    show (ufInit n).push.Equiv a b ↔ a = b
    rw [Batteries.UnionFind.equiv_push]
    exact ih

/-- Unfolding one edge of the fold. -/
theorem addEdges_cons (uf : Batteries.UnionFind) (e : Nat × Nat)
    (es : List (Nat × Nat)) :
    addEdges uf (e :: es) =
      addEdges (if h : e.1 < uf.size ∧ e.2 < uf.size
        then uf.union ⟨e.1, h.1⟩ ⟨e.2, h.2⟩ else uf) es := rfl

/-- Processing edges preserves the number of nodes. -/
theorem addEdges_size (es : List (Nat × Nat)) :
    ∀ uf : Batteries.UnionFind, (addEdges uf es).size = uf.size := by
  induction es with
  | nil => intro uf; rfl
  | cons e es ih =>
    intro uf
    rw [addEdges_cons, ih]
    split
    · exact union_size ..
    · rfl

/-- Flattening one layer of generators into an equivalence closure. -/
theorem eqvGen_bind {r s : Nat → Nat → Prop}
    (h : ∀ a b, r a b → Relation.EqvGen s a b) :
    ∀ a b, Relation.EqvGen r a b → Relation.EqvGen s a b := by
  intro a b hab
  induction hab with
  | rel x y hxy => exact h x y hxy
  | refl x => exact Relation.EqvGen.refl x
  | symm x y _ ih => exact Relation.EqvGen.symm x y ih
  | trans x y z _ _ ih1 ih2 => exact Relation.EqvGen.trans x y z ih1 ih2

/-- Union-find equivalence after processing the edges is the equivalence
generated by the prior equivalence together with the (symmetrized) edges. -/
theorem equiv_addEdges (es : List (Nat × Nat)) :
    ∀ uf : Batteries.UnionFind, (∀ e ∈ es, e.1 < uf.size ∧ e.2 < uf.size) →
      ∀ a b, (addEdges uf es).Equiv a b ↔
        Relation.EqvGen (fun p q => uf.Equiv p q ∨ (p, q) ∈ es ∨ (q, p) ∈ es) a b := by
  induction es with
  | nil =>
    intro uf _ a b
    constructor
    · intro h
      exact Relation.EqvGen.rel a b (Or.inl h)
    · intro h
      induction h with
      | rel x y hxy =>
        rcases hxy with h | h | h
        · exact h
        · cases h
        · cases h
      | refl x => exact Batteries.UnionFind.Equiv.rfl
      | symm x y _ ih => exact ih.symm
      | trans x y z _ _ ih1 ih2 => exact ih1.trans ih2
  | cons e es ih =>
    intro uf hb a b
    have hbe := hb e (List.mem_cons_self e es)
    rw [addEdges_cons, dif_pos hbe]
    have hbes : ∀ e' ∈ es,
        e'.1 < (uf.union ⟨e.1, hbe.1⟩ ⟨e.2, hbe.2⟩).size ∧
          e'.2 < (uf.union ⟨e.1, hbe.1⟩ ⟨e.2, hbe.2⟩).size := by
      intro e' he'
      rw [union_size]
      exact hb e' (List.mem_cons_of_mem e he')
    rw [ih _ hbes a b]
    have hehead : (e.1, e.2) ∈ e :: es := by
      rw [Prod.mk.eta]
      exact List.mem_cons_self e es
    constructor
    · refine eqvGen_bind ?_ a b
      intro p q hpq
      rcases hpq with h | h | h
      · rw [Batteries.UnionFind.equiv_union] at h
        rcases h with h | ⟨h1, h2⟩ | ⟨h1, h2⟩
        · exact Relation.EqvGen.rel p q (Or.inl h)
        · refine Relation.EqvGen.trans p e.1 q
            (Relation.EqvGen.rel _ _ (Or.inl h1)) ?_
          exact Relation.EqvGen.trans e.1 e.2 q
            (Relation.EqvGen.rel _ _ (Or.inr (Or.inl hehead)))
            (Relation.EqvGen.rel _ _ (Or.inl h2))
        · refine Relation.EqvGen.trans p e.2 q
            (Relation.EqvGen.rel _ _ (Or.inl h1)) ?_
          exact Relation.EqvGen.trans e.2 e.1 q
            (Relation.EqvGen.rel _ _ (Or.inr (Or.inr hehead)))
            (Relation.EqvGen.rel _ _ (Or.inl h2))
      · exact Relation.EqvGen.rel p q (Or.inr (Or.inl (List.mem_cons_of_mem e h)))
      · exact Relation.EqvGen.rel p q (Or.inr (Or.inr (List.mem_cons_of_mem e h)))
    · refine eqvGen_bind ?_ a b
      intro p q hpq
      rcases hpq with h | h | h
      · exact Relation.EqvGen.rel p q
          (Or.inl (Batteries.UnionFind.equiv_union.2 (Or.inl h)))
      · rcases List.mem_cons.1 h with heq | htl
        · have h1 : p = e.1 := by rw [← heq]
          have h2 : q = e.2 := by rw [← heq]
          subst h1
          subst h2
          exact Relation.EqvGen.rel _ _ (Or.inl (Batteries.UnionFind.equiv_union.2
            (Or.inr (Or.inl ⟨Batteries.UnionFind.Equiv.rfl, Batteries.UnionFind.Equiv.rfl⟩))))
        · exact Relation.EqvGen.rel p q (Or.inr (Or.inl htl))
      · rcases List.mem_cons.1 h with heq | htl
        · have h1 : q = e.1 := by rw [← heq]
          have h2 : p = e.2 := by rw [← heq]
          subst h1
          subst h2
          exact Relation.EqvGen.rel _ _ (Or.inl (Batteries.UnionFind.equiv_union.2
            (Or.inr (Or.inr ⟨Batteries.UnionFind.Equiv.rfl, Batteries.UnionFind.Equiv.rfl⟩))))
        · exact Relation.EqvGen.rel p q (Or.inr (Or.inr htl))

/-- A single symmetrized edge is symmetric. -/
theorem edgeStep_symm (es : List (Nat × Nat)) : Symmetric (EdgeStep es) :=
  fun _ _ h => h.symm

/-- The equivalence generated by equality and the symmetrized edges is path
connectivity. -/
theorem connected_iff (es : List (Nat × Nat)) (a b : Nat) :
    Relation.EqvGen (fun p q => p = q ∨ (p, q) ∈ es ∨ (q, p) ∈ es) a b ↔
      Connected es a b := by
  constructor
  · intro h
    induction h with
    | rel x y hxy =>
      rcases hxy with rfl | h | h
      · exact Relation.ReflTransGen.refl
      · exact Relation.ReflTransGen.single (Or.inl h)
      · exact Relation.ReflTransGen.single (Or.inr h)
    | refl x => exact Relation.ReflTransGen.refl
    | symm x y _ ih => exact Relation.ReflTransGen.symmetric (edgeStep_symm es) ih
    | trans x y z _ _ ih1 ih2 => exact ih1.trans ih2
  · intro h
    induction h with
    | refl => exact Relation.EqvGen.refl a
    | tail _ hstep ih =>
      exact Relation.EqvGen.trans _ _ _ ih (Relation.EqvGen.rel _ _ (Or.inr hstep))

/-- Membership in the first-encounter accumulation. -/
theorem mem_firstSeenAux (l : List Nat) : ∀ (acc : List Nat) (x : Nat),
    x ∈ firstSeenAux acc l ↔ x ∈ acc ∨ x ∈ l := by
  induction l with
  | nil =>
    intro acc x
    simp [firstSeenAux]
  | cons r rs ih =>
    intro acc x
    show x ∈ (if r ∈ acc then firstSeenAux acc rs else firstSeenAux (acc ++ [r]) rs) ↔ _
    split_ifs with hmem
    · rw [ih]
      simp only [List.mem_cons]
      constructor
      · rintro (h | h)
        · exact Or.inl h
        · exact Or.inr (Or.inr h)
      · rintro (h | rfl | h)
        · exact Or.inl h
        · exact Or.inl hmem
        · exact Or.inr h
    · rw [ih]
      simp only [List.mem_append, List.mem_singleton, List.mem_cons]
      tauto

/-- The first-encounter accumulation of a duplicate-free seed is
duplicate-free. -/
theorem firstSeenAux_nodup (l : List Nat) : ∀ acc : List Nat, acc.Nodup →
    (firstSeenAux acc l).Nodup := by
  induction l with
  | nil =>
    intro acc h
    exact h
  | cons r rs ih =>
    intro acc h
    show (if r ∈ acc then firstSeenAux acc rs else firstSeenAux (acc ++ [r]) rs).Nodup
    split_ifs with hmem
    · exact ih acc h
    · refine ih _ ?_
      rw [List.nodup_append]
      refine ⟨h, List.nodup_singleton r, ?_⟩
      intro x hx hxr
      rw [List.mem_singleton] at hxr
      exact hmem (hxr ▸ hx)

/-- The root order list is duplicate-free. -/
theorem rootsInOrder_nodup (uf : Batteries.UnionFind) (n : Nat) :
    (rootsInOrder uf n).Nodup :=
  firstSeenAux_nodup _ [] List.nodup_nil

/-- The root order list holds exactly the roots of the contacts. -/
theorem mem_rootsInOrder (uf : Batteries.UnionFind) (n r : Nat) :
    r ∈ rootsInOrder uf n ↔ ∃ i, i < n ∧ uf.rootD i = r := by
  unfold rootsInOrder
  rw [mem_firstSeenAux]
  simp [List.mem_map, List.mem_range, eq_comm]

/-- C7.  Cluster correctness of the spec-modelled `recompute()`: under
foreign-key integrity of the edges, every contact (isolated ones included)
receives a cluster label; two contacts share a label exactly when a path of
(symmetrically read) association edges connects them; the labels handed out
are exactly `0 .. clusters_found - 1`, so `clusters_found` is the number of
connected components; and `contacts_updated` equals the contact count. -/
theorem recompute_clusters (n : Nat) (es : List (Nat × Nat))
    (hb : ∀ e ∈ es, e.1 < n ∧ e.2 < n) :
    (∀ i, i < n → ∃ l, (recompute n es).1 i = some l ∧
      l < (recompute n es).2.clusters_found) ∧
    (∀ l, l < (recompute n es).2.clusters_found →
      ∃ i, i < n ∧ (recompute n es).1 i = some l) ∧
    (∀ i, i < n → ∀ j, j < n →
      ((recompute n es).1 i = (recompute n es).1 j ↔ Connected es i j)) ∧
    (recompute n es).2.contacts_updated = n := by
  have hbsize : ∀ e ∈ es, e.1 < (ufInit n).size ∧ e.2 < (ufInit n).size := by
    intro e he
    rw [ufInit_size]
    exact hb e he
  set uf := addEdges (ufInit n) es with huf
  set roots := rootsInOrder uf n with hroots
  have hkey : ∀ a b, uf.Equiv a b ↔ Connected es a b := by
    intro a b
    rw [huf, equiv_addEdges es (ufInit n) hbsize a b, ← connected_iff es a b]
    constructor
    · refine eqvGen_bind ?_ a b
      intro p q h
      rcases h with h | h
      · exact Relation.EqvGen.rel _ _ (Or.inl ((ufInit_equiv n p q).1 h))
      · exact Relation.EqvGen.rel _ _ (Or.inr h)
    · refine eqvGen_bind ?_ a b
      intro p q h
      rcases h with h | h
      · exact Relation.EqvGen.rel _ _ (Or.inl ((ufInit_equiv n p q).2 h))
      · exact Relation.EqvGen.rel _ _ (Or.inr h)
  have hlab : ∀ i, i < n →
      (recompute n es).1 i = some (roots.indexOf (uf.rootD i)) := by
    intro i hi
    show (if i < n then some (roots.indexOf (uf.rootD i)) else none) = _
    rw [if_pos hi]
  have hcf : (recompute n es).2.clusters_found = roots.length := rfl
  have hmemroot : ∀ i, i < n → uf.rootD i ∈ roots := by
    intro i hi
    exact (mem_rootsInOrder uf n _).2 ⟨i, hi, rfl⟩
  refine ⟨?_, ?_, ?_, ?_⟩
  · intro i hi
    refine ⟨roots.indexOf (uf.rootD i), hlab i hi, ?_⟩
    rw [hcf]
    exact List.indexOf_lt_length.2 (hmemroot i hi)
  · intro l hl
    rw [hcf] at hl
    have hmem : roots.get ⟨l, hl⟩ ∈ roots := List.get_mem roots l hl
    obtain ⟨i, hi, hroot⟩ := (mem_rootsInOrder uf n _).1 hmem
    refine ⟨i, hi, ?_⟩
    rw [hlab i hi, hroot]
    congr 1
    have hnd := rootsInOrder_nodup uf n
    have hlt : roots.indexOf (roots.get ⟨l, hl⟩) < roots.length :=
      List.indexOf_lt_length.2 hmem
    have hget : roots.get ⟨roots.indexOf (roots.get ⟨l, hl⟩), hlt⟩ = roots.get ⟨l, hl⟩ :=
      List.indexOf_get hlt
    have h2 := (List.Nodup.get_inj_iff hnd).1 hget
    exact congrArg Fin.val h2
  · intro i hi j hj
    rw [hlab i hi, hlab j hj, Option.some_inj,
      List.indexOf_inj (hmemroot i hi) (hmemroot j hj)]
    exact hkey i j
  · show ((List.range n).map uf.rootD).length = n
    simp

/-- Witness for C7: spec scenario 3 — five contacts with edges A–B and C–D
and an isolated E; all edge endpoints are valid contacts. -/
theorem recompute_clusters_witness :
    (∀ e ∈ [((0 : Nat), (1 : Nat)), (2, 3)], e.1 < 5 ∧ e.2 < 5) ∧
    (∀ i, i < 5 → ∃ l, (recompute 5 [(0, 1), (2, 3)]).1 i = some l ∧
      l < (recompute 5 [(0, 1), (2, 3)]).2.clusters_found) :=
  ⟨by decide, (recompute_clusters 5 [(0, 1), (2, 3)] (by decide)).1⟩

/-- Witness for C8 (amended): with exactly one record, stored as (B, A),
creating (A, B) raises the exists error. -/
theorem create_edge_symmetric_uniqueness_witness :
    findById exAssocOne.contacts 1 = some { id := 1 } ∧
    findById exAssocOne.contacts 2 = some { id := 2 } ∧
    (matchingEdges exAssocOne 1 2).length = 1 ∧
    ((create_edge exAssocOne 1 2 none 99).2 = .error (.graphEdgeExists 1 2) ↔
      (matchingEdges exAssocOne 1 2).length = 1) :=
  ⟨rfl, rfl, by decide,
    (create_edge_symmetric_uniqueness exAssocOne 1 2 none 99
      { id := 1 } { id := 2 } rfl rfl).1⟩

end CRM
